import Mathlib

/-!
Verification of the two OAuth refresh-token scripts
(`get_refresh_token.py`, the manual flow, and
`get_refresh_token_localhost.py`, the local-redirect flow).

Strings are modelled as `List Char`.  All inputs relevant to the
claims (URLs, scopes, authorization codes, query strings, JSON bodies)
are ASCII, where Python's byte-level processing of the UTF-8 encoding
coincides character-for-character with processing the characters
directly.
-/

set_option maxHeartbeats 1600000

namespace PhotoSync

/-- Python whitespace for `str.strip()` (the ASCII part; the inputs here
are ASCII). -/
def isPySpace (c : Char) : Bool :=
  c = ' ' || c = '\t' || c = '\n' || c = '\r' || c = Char.ofNat 11 || c = Char.ofNat 12

/-- Python `str.strip()`: drop leading and trailing whitespace. -/
def pyStrip (s : List Char) : List Char :=
  ((s.dropWhile isPySpace).reverse.dropWhile isPySpace).reverse

/-- Characters never percent-encoded by `urllib.parse.quote` with the
default `safe="/"`: ASCII letters, digits, `_.-~`, and `/`. -/
def isQuoteSafe (c : Char) : Bool :=
  (('a' ≤ c && c ≤ 'z') || ('A' ≤ c && c ≤ 'Z') || ('0' ≤ c && c ≤ '9')
    || c = '_' || c = '.' || c = '-' || c = '~' || c = '/')

/-- Upper-case hex digit of `n < 16`, as produced by `quote`. -/
def hexDigitChar (n : Nat) : Char :=
  if n < 10 then Char.ofNat (48 + n) else Char.ofNat (55 + n)

/-- Value of a hex digit (either case); 0 on non-digits (the callers
guard with `isHexDigit`). -/
def hexVal (c : Char) : Nat :=
  if '0' ≤ c && c ≤ '9' then c.toNat - 48
  else if 'A' ≤ c && c ≤ 'F' then c.toNat - 55
  else if 'a' ≤ c && c ≤ 'f' then c.toNat - 87
  else 0

def isHexDigit (c : Char) : Bool :=
  ('0' ≤ c && c ≤ '9') || ('A' ≤ c && c ≤ 'F') || ('a' ≤ c && c ≤ 'f')

/-- `urllib.parse.quote` on one character (ASCII input; on ASCII the
UTF-8 byte equals the code point). -/
def quoteChar (c : Char) : List Char :=
  if isQuoteSafe c then [c]
  else ['%', hexDigitChar (c.toNat / 16), hexDigitChar (c.toNat % 16)]

/-- `urllib.parse.quote(s)` with the default `safe="/"`. -/
def quote (s : List Char) : List Char :=
  s.flatMap quoteChar

/-- Fuel-indexed percent decoder; the fuel (always instantiated with at
least the input length, which every step preserves) only serves to make
the recursion structural. -/
def unquoteF : Nat → List Char → List Char
  | 0, l => l
  | _ + 1, [] => []
  | fuel + 1, c :: rest =>
    if c = '%' then
      match rest with
      | h1 :: h2 :: rest2 =>
        if isHexDigit h1 && isHexDigit h2 then
          Char.ofNat (16 * hexVal h1 + hexVal h2) :: unquoteF fuel rest2
        else c :: unquoteF fuel (h1 :: h2 :: rest2)
      | _ => c :: unquoteF fuel rest
    else c :: unquoteF fuel rest

/-- `urllib.parse.unquote`: decode `%XX` sequences, leaving malformed
percent signs untouched. -/
def unquote (l : List Char) : List Char := unquoteF l.length l

/-- Split a query string at every `&` (the separator used both by the
URL template and by `urllib.parse.parse_qs`). -/
def splitOnAmp : List Char → List (List Char)
  | [] => [[]]
  | c :: cs =>
    if c = '&' then [] :: splitOnAmp cs
    else
      match splitOnAmp cs with
      | [] => [[c]]
      | g :: gs => (c :: g) :: gs

/-- Split one `name=value` segment at the first `=`, as
`name_value.split(sep = chr 61, maxsplit = 1)` does; `none` when there is
no `=` at all. -/
def splitKV : List Char → Option (List Char × List Char)
  | [] => none
  | c :: cs =>
    if c = '=' then some ([], cs)
    else
      match splitKV cs with
      | none => none
      | some (k, v) => some (c :: k, v)

/-- View a raw query string as an ordered list of key/value pairs
without any decoding (used to state what the URL builder produces;
segments with no `=` keep the whole segment as key with empty value). -/
def parseQuery (q : List Char) : List (List Char × List Char) :=
  (splitOnAmp q).map fun seg =>
    match splitKV seg with
    | some kv => kv
    | none => (seg, [])

/-- The authorization-endpoint query template shared by both scripts:
`client_id` inserted raw, `redirect_uri` and `scope` passed through
`urllib.parse.quote`, plus the three fixed parameters, in source order. -/
def authQuery (client_id redirect_uri scope_string : List Char) : List Char :=
  ("client_id=".toList ++ client_id)
  ++ '&' :: (("redirect_uri=".toList ++ quote redirect_uri)
  ++ '&' :: ("response_type=code".toList
  ++ '&' :: (("scope=".toList ++ quote scope_string)
  ++ '&' :: ("access_type=offline".toList
  ++ '&' :: "prompt=consent".toList))))

/-- The full authorization URL built by `auth_url` in both scripts. -/
def auth_url (client_id redirect_uri scope_string : List Char) : List Char :=
  "https://accounts.google.com/o/oauth2/v2/auth?".toList
    ++ authQuery client_id redirect_uri scope_string

/-- The scope list of the manual-flow script (`get_refresh_token.py`). -/
def scopesManual : List (List Char) :=
  ["https://www.googleapis.com/auth/photoslibrary".toList,
   "https://www.googleapis.com/auth/photoslibrary.appendonly".toList]

/-- The scope list of the local-redirect script
(`get_refresh_token_localhost.py`). -/
def scopesLocalhost : List (List Char) :=
  ["https://www.googleapis.com/auth/photoslibrary.appendonly".toList,
   "https://www.googleapis.com/auth/photoslibrary.readonly.appcreateddata".toList,
   "https://www.googleapis.com/auth/photoslibrary.edit.appcreateddata".toList]

/-- `scope_string = " ".join(scopes)`. -/
def scope_string (scopes : List (List Char)) : List Char :=
  match scopes with
  | [] => []
  | s :: rest => s ++ rest.flatMap (fun t => ' ' :: t)

/-- Characters legal in a fully percent-encoded URL as this program
builds one: unreserved characters, the reserved delimiters the template
itself uses, and percent-escape material. -/
def isUrlChar (c : Char) : Bool :=
  isQuoteSafe c || c = '%' || c = ':' || c = '?' || c = '&' || c = '='
    || ('0' ≤ c && c ≤ '9') || ('A' ≤ c && c ≤ 'F')

/-- `s.replace(chr 43, chr 32)` followed by percent-decoding: the
`unquote_plus` used on names and values by `parse_qs`. -/
def unquotePlus (s : List Char) : List Char :=
  unquote (s.map fun c => if c = '+' then ' ' else c)

/-- `urllib.parse.parse_qsl` with the default `keep_blank_values=False`:
split on `&`, drop empty segments, drop segments without `=`, drop
pairs whose raw value is empty, and decode names and values with
`unquote_plus`. -/
def parse_qsl (q : List Char) : List (List Char × List Char) :=
  (splitOnAmp q).filterMap fun seg =>
    if seg = [] then none
    else
      match splitKV seg with
      | none => none
      | some (n, v) =>
        if v = [] then none
        else some (unquotePlus n, unquotePlus v)

/-- The list `parse_qs(q)[key]` of the dict-of-lists built by
`urllib.parse.parse_qs`: all decoded values for `key`, in order;
`[]` when the key is absent from the dict. -/
def qsValues (q : List Char) (key : List Char) : List (List Char) :=
  ((parse_qsl q).filter fun p => p.1 = key).map fun p => p.2

/-- `key in parse_qs(q)`. -/
def qsHasKey (q : List Char) (key : List Char) : Bool :=
  qsValues q key ≠ []

/-- `parse_qs(q)[key][0]` (callers guard with `qsHasKey`). -/
def qsFirst (q : List Char) (key : List Char) : List Char :=
  (qsValues q key).headD []

/-- `parse_qs(q).get(key, [d])[0]`. -/
def qsFirstD (q : List Char) (key d : List Char) : List Char :=
  (qsValues q key).headD d

/-- The `query` component `urlparse(path)` extracts from a request
target such as `/?code=abc`: everything after the first `?`, with a
`#` fragment (split off first) removed. -/
def urlQuery (path : List Char) : List Char :=
  let beforeFrag := path.takeWhile fun c => c ≠ '#'
  ((beforeFrag.dropWhile fun c => c ≠ '?').drop 1)

/-- Shared mutable state of the local-redirect script: the global
`auth_code` and the `code_received` threading event. -/
structure HState where
  auth_code : Option (List Char)
  code_received : Bool
deriving DecidableEq

/-- `auth_code = None`, `code_received` unset, as at module load. -/
def initState : HState := ⟨none, false⟩

/-- The success page `OAuthHandler.do_GET` sends with status 200. -/
def successPage : List Char :=
  ("\n            <html>\n            <head><title>Authorization Successful</title></head>\n            <body>\n            <h1>Authorization Successful!</h1>\n            <p>You can close this window and return to the terminal.</p>\n            </body>\n            </html>\n            ").toList

/-- The failure page sent with status 400, with the `error` and
`error_description` values rendered into the f-string template. -/
def failurePage (error desc : List Char) : List Char :=
  ("\n            <html>\n            <head><title>Authorization Failed</title></head>\n            <body>\n            <h1>Authorization Failed</h1>\n            <p>Error: ").toList
  ++ error
  ++ ("</p>\n            <p>").toList
  ++ desc
  ++ ("</p>\n            </body>\n            </html>\n            ").toList

/-- The generic page sent with status 200 to any other request. -/
def waitingPage : List Char :=
  "<html><body>Waiting for authorization...</body></html>".toList

/-- `OAuthHandler.do_GET` as a function of the shared state and the
request target: returns the new shared state, the response status, and
the response body. -/
def do_GET (st : HState) (path : List Char) : HState × Nat × List Char :=
  let q := urlQuery path
  if qsHasKey q "code".toList then
    (⟨some (qsFirst q "code".toList), true⟩, 200, successPage)
  else if qsHasKey q "error".toList then
    (st, 400,
      failurePage (qsFirst q "error".toList) (qsFirstD q "error_description".toList []))
  else
    (st, 200, waitingPage)

/-- The accept/handle loop of `start_local_server`
(`while not code_received.is_set(): httpd.handle_request()`), run over
the finite sequence of requests arriving before the timeout: each
iteration checks the event, then dispatches one request to `do_GET`.
Returns the final shared state and the list of dispatched requests
with their responses. -/
def serverLoop : HState → List (List Char) → HState × List (List Char × Nat × List Char)
  | st, [] => (st, [])
  | st, r :: rs =>
    if st.code_received then (st, [])
    else
      let res := do_GET st r
      let rest := serverLoop res.1 rs
      (rest.1, (r, res.2) :: rest.2)

/-- Does the request target carry a `code` query parameter (in the
`parse_qs` sense used by the handler)? -/
def isCodeReq (path : List Char) : Bool :=
  qsHasKey (urlQuery path) "code".toList

/-- The form fields of the token-exchange POST body built by both
scripts. -/
structure TokenRequest where
  code : List Char
  client_id : List Char
  client_secret : List Char
  redirect_uri : List Char
  grant_type : List Char
deriving DecidableEq

def mkTokenRequest (code cid secret redirect : List Char) : TokenRequest :=
  ⟨code, cid, secret, redirect, "authorization_code".toList⟩

/-- Outcome of `urllib.request.urlopen` on the token endpoint: a 2xx
response whose JSON body parsed to the given dict, an
`urllib.error.HTTPError` with status and body, or any other exception. -/
inductive ExchangeResult where
  | ok (tokens : List (List Char × List Char))
  | httpError (status : Nat) (body : List Char)
  | exception (message : List Char)

/-- Python dict lookup (`k in d` / `d[k]`) on a parsed JSON object,
represented as its key/value pairs. -/
def pyDictGet (m : List (List Char × List Char)) (k : List Char) : Option (List Char) :=
  match m.find? fun p => p.1 = k with
  | some p => some p.2
  | none => none

/-- The operator-visible outputs of the two scripts that the
specification talks about (banner and instruction prints omitted). -/
inductive OutEvent where
  | tokenValue (token : List Char)
  | warnNoRefreshToken
  | responseDump (tokens : List (List Char × List Char))
  | exchangeFailed (status : Nat) (body : List Char)
  | errorDescription (desc : List Char)
  | unexpectedError (message : List Char)
  | timeoutMsg
  | abortNoCode
deriving DecidableEq

/-- A file write `open(name, mode).write(contents)`. -/
structure FileWrite where
  name : List Char
  mode : List Char
  contents : List Char
deriving DecidableEq

/-- Resulting file contents after the write, given the previous
contents (`none` when the file did not exist): mode `w` truncates
first, so the previous contents never survive. -/
def applyWrite (w : FileWrite) (prev : Option (List Char)) : List Char :=
  if w.mode = "w".toList then w.contents else prev.getD [] ++ w.contents

def skipWs (l : List Char) : List Char :=
  l.dropWhile fun c => c = ' ' || c = '\t' || c = '\n' || c = '\r'

def openBrace : Char := Char.ofNat 123

def closeBrace : Char := Char.ofNat 125

/-- Scan a JSON string body up to the closing quote (no escape
sequences; the token endpoint's error fields contain none). -/
def pjString : List Char → Option (List Char × List Char)
  | [] => none
  | c :: cs =>
    if c = '"' then some ([], cs)
    else
      match pjString cs with
      | some (s, rest) => some (c :: s, rest)
      | none => none

/-- Members of a flat JSON object, fueled by input length. -/
def pjMembers : Nat → List Char → Option (List (List Char × List Char) × List Char)
  | 0, _ => none
  | fuel + 1, l =>
    match skipWs l with
    | '"' :: r0 =>
      match pjString r0 with
      | some (k, r1) =>
        match skipWs r1 with
        | ':' :: r2 =>
          match skipWs r2 with
          | '"' :: r3 =>
            match pjString r3 with
            | some (v, r4) =>
              match skipWs r4 with
              | ',' :: r5 =>
                match pjMembers fuel r5 with
                | some (ms, r6) => some ((k, v) :: ms, r6)
                | none => none
              | c :: r5 => if c = closeBrace then some ([(k, v)], r5) else none
              | [] => none
            | none => none
          | _ => none
        | _ => none
      | none => none
    | _ => none

/-- `json.loads` restricted to flat objects with unescaped string keys
and values — the shape of the token endpoint's error bodies, which is
all the scripts ever feed it on this path; `none` models a raised
`JSONDecodeError` (swallowed by the bare `except` around the
best-effort parse). -/
def jsonLoadsFlat (l : List Char) : Option (List (List Char × List Char)) :=
  match skipWs l with
  | c :: r0 =>
    if c = openBrace then
      match skipWs r0 with
      | c2 :: r1 =>
        if c2 = closeBrace then (if skipWs r1 = [] then some [] else none)
        else
          match pjMembers (l.length + 1) (c2 :: r1) with
          | some (ms, rest) => if skipWs rest = [] then some ms else none
          | none => none
      | [] => none
    else none
  | [] => none

/-- The outputs of the `urllib.error.HTTPError` handler: the status and
raw body are always printed; then a best-effort `json.loads` of the
body prints `error_description` when the parse succeeds and the key is
present (any parse failure is swallowed by the inner bare `except`). -/
def httpErrorEvents (status : Nat) (body : List Char) : List OutEvent :=
  match jsonLoadsFlat body with
  | some j =>
    match pyDictGet j "error_description".toList with
    | some d => [.exchangeFailed status body, .errorDescription d]
    | none => [.exchangeFailed status body]
  | none => [.exchangeFailed status body]

/-- The module-level token-exchange epilogue shared verbatim by both
scripts (the `if "refresh_token" not in tokens` branch, the success
branch with its `refresh_token.txt` write, and the two `except`
handlers): the emitted outputs, the file write if any, and the process
exit status (both scripts simply fall off the end of the module after
every branch, so the status is 0 throughout). -/
def finishExchange (res : ExchangeResult) : List OutEvent × Option FileWrite × Nat :=
  match res with
  | .ok tokens =>
    match pyDictGet tokens "refresh_token".toList with
    | none => ([.warnNoRefreshToken, .responseDump tokens], none, 0)
    | some r =>
      ([.tokenValue r], some ⟨"refresh_token.txt".toList, "w".toList, r⟩, 0)
  | .httpError status body => (httpErrorEvents status body, none, 0)
  | .exception msg => ([.unexpectedError msg], none, 0)

/-- Observable outcome of one whole run: exit status, the token POST if
one was made (with its form fields), the reported outputs, and the file
write if any. -/
structure RunResult where
  exitCode : Nat
  posted : Option TokenRequest
  events : List OutEvent
  fileWrite : Option FileWrite
deriving DecidableEq

/-- `get_refresh_token.py` from the `input()` prompt on, as a function
of the raw operator input, the configured credentials, and the token
endpoint's behaviour (an oracle mapping the POSTed request to its
outcome): strip the input, abort with `exit(1)` when empty, otherwise
POST once and run the shared epilogue. -/
def manualFlow (rawInput cid secret redirect : List Char)
    (endpoint : TokenRequest → ExchangeResult) : RunResult :=
  let auth_code := pyStrip rawInput
  if auth_code = [] then ⟨1, none, [.abortNoCode], none⟩
  else
    let req := mkTokenRequest auth_code cid secret redirect
    let out := finishExchange (endpoint req)
    ⟨out.2.2, some req, out.1, out.2.1⟩

/-- Python truthiness of the global `auth_code` at the
`if not auth_code:` check. -/
def pyFalsyCode : Option (List Char) → Bool
  | none => true
  | some s => s.isEmpty

/-- `get_refresh_token_localhost.py` from the wait on `code_received`
on: the listener thread has run `serverLoop` over the requests that
arrived within the 300-second window; if the global `auth_code` is
still falsy the run reports a timeout and exits 1, otherwise it POSTs
the captured code once and runs the shared epilogue. -/
def localFlow (reqs : List (List Char)) (cid secret : List Char)
    (endpoint : TokenRequest → ExchangeResult) : RunResult :=
  let st := (serverLoop initState reqs).1
  if pyFalsyCode st.auth_code then ⟨1, none, [.timeoutMsg], none⟩
  else
    let req := mkTokenRequest (st.auth_code.getD []) cid secret
      "http://localhost:8080".toList
    let out := finishExchange (endpoint req)
    ⟨out.2.2, some req, out.1, out.2.1⟩

/-- The fixed five-minute deadline used both for `httpd.timeout` and for
`code_received.wait(timeout=300)`. -/
def timeoutSeconds : Nat := 300

/-- Did the token-exchange attempt fail (non-2xx HTTP status or a
transport/parse exception), as opposed to returning a parsed 2xx
response? -/
def failedExchange : ExchangeResult → Bool
  | .ok _ => false
  | .httpError _ _ => true
  | .exception _ => true

/-- Does the output stream report an exchange failure (either the
HTTPError report with status and body, or the generic unexpected-error
report)? -/
def reportsExchangeFailure (evs : List OutEvent) : Bool :=
  evs.any fun e =>
    match e with
    | .exchangeFailed _ _ => true
    | .unexpectedError _ => true
    | _ => false

section Lemmas

lemma char_ofNat_toNat (c : Char) (h : c.toNat < 128) : Char.ofNat c.toNat = c := by
  have hv : c.toNat.isValidChar := Or.inl (by omega)
  unfold Char.ofNat
  rw [dif_pos hv]
  apply Char.eq_of_val_eq
  apply UInt32.eq_of_toBitVec_eq
  exact BitVec.eq_of_toNat_eq rfl

lemma hexDigit_facts :
    ∀ k < 16, isUrlChar (hexDigitChar k) = true ∧ hexDigitChar k ≠ '&'
      ∧ hexDigitChar k ≠ '=' ∧ isHexDigit (hexDigitChar k) = true
      ∧ hexVal (hexDigitChar k) = k := by
  decide

lemma quoteSafe_ne (c : Char) (h : isQuoteSafe c = true) :
    isUrlChar c = true ∧ c ≠ '&' ∧ c ≠ '=' ∧ c ≠ '%' := by
  refine ⟨by simp [isUrlChar, h], ?_, ?_, ?_⟩
  all_goals rintro rfl; exact absurd h (by decide)

lemma quoteChar_chars (c : Char) (hc : c.toNat < 128) :
    ∀ d ∈ quoteChar c, isUrlChar d = true ∧ d ≠ '&' ∧ d ≠ '=' := by
  intro d hd
  unfold quoteChar at hd
  by_cases hs : isQuoteSafe c = true
  · rw [if_pos hs] at hd
    simp only [List.mem_singleton] at hd
    subst hd
    exact ⟨(quoteSafe_ne _ hs).1, (quoteSafe_ne _ hs).2.1, (quoteSafe_ne _ hs).2.2.1⟩
  · rw [if_neg hs] at hd
    have hdiv : c.toNat / 16 < 16 := by omega
    have hmod : c.toNat % 16 < 16 := by omega
    simp only [List.mem_cons, List.mem_singleton, List.not_mem_nil, or_false] at hd
    rcases hd with rfl | rfl | rfl
    · exact ⟨by decide, by decide, by decide⟩
    · exact ⟨(hexDigit_facts _ hdiv).1, (hexDigit_facts _ hdiv).2.1,
        (hexDigit_facts _ hdiv).2.2.1⟩
    · exact ⟨(hexDigit_facts _ hmod).1, (hexDigit_facts _ hmod).2.1,
        (hexDigit_facts _ hmod).2.2.1⟩

lemma quote_chars (s : List Char) (hs : ∀ c ∈ s, c.toNat < 128) :
    ∀ d ∈ quote s, isUrlChar d = true ∧ d ≠ '&' ∧ d ≠ '=' := by
  intro d hd
  unfold quote at hd
  rcases List.mem_flatMap.mp hd with ⟨c, hc, hdc⟩
  exact quoteChar_chars c (hs c hc) d hdc

lemma amp_not_mem_quote (s : List Char) (hs : ∀ c ∈ s, c.toNat < 128) :
    '&' ∉ quote s :=
  fun hmem => (quote_chars s hs '&' hmem).2.1 rfl

lemma unquoteF_nil (fuel : Nat) : unquoteF fuel [] = [] := by
  cases fuel <;> rfl

lemma unquoteF_congr : ∀ n (l : List Char), l.length ≤ n →
    ∀ f1 f2, l.length ≤ f1 → l.length ≤ f2 → unquoteF f1 l = unquoteF f2 l := by
  intro n
  induction n with
  | zero =>
    intro l hl f1 f2 _ _
    have hnil : l = [] := List.length_eq_zero.mp (Nat.le_zero.mp hl)
    subst hnil
    rw [unquoteF_nil, unquoteF_nil]
  | succ n ih =>
    intro l hl f1 f2 ha hb
    cases l with
    | nil => rw [unquoteF_nil, unquoteF_nil]
    | cons c rest =>
      cases f1 with
      | zero => exact absurd ha (by simp)
      | succ g1 =>
        cases f2 with
        | zero => exact absurd hb (by simp)
        | succ g2 =>
          simp only [List.length_cons, Nat.succ_le_succ_iff] at hl ha hb
          by_cases hc : c = '%'
          · cases rest with
            | nil => simp [unquoteF, hc, unquoteF_nil]
            | cons d rest2 =>
              cases rest2 with
              | nil =>
                simp only [unquoteF, hc, if_true]
                have := ih [d] (by simp at hl ⊢; omega) g1 g2
                  (by simp at ha ⊢; omega) (by simp at hb ⊢; omega)
                simp [hc, this]
              | cons e rest3 =>
                simp only [unquoteF, hc, if_true]
                have h3 : rest3.length + 2 ≤ n := by simp at hl; omega
                have hrec1 := ih rest3 (by omega) g1 g2
                  (by simp at ha; omega) (by simp at hb; omega)
                have hrec2 := ih (d :: e :: rest3) (by simp; omega) g1 g2
                  (by simp at ha ⊢; omega) (by simp at hb ⊢; omega)
                simp [hc, hrec1, hrec2]
          · simp only [unquoteF, if_neg hc]
            have := ih rest (by omega) g1 g2 (by omega) (by omega)
            simp [this]

lemma unquoteF_len (fuel : Nat) (l : List Char) (h : l.length ≤ fuel) :
    unquoteF fuel l = unquote l :=
  unquoteF_congr (fuel) l (by omega) fuel l.length h (Nat.le_refl _)

lemma unquote_cons_of_ne (c : Char) (l : List Char) (hc : c ≠ '%') :
    unquote (c :: l) = c :: unquote l := by
  show unquoteF (l.length + 1) (c :: l) = c :: unquote l
  cases l with
  | nil => simp [unquoteF, hc, unquote]
  | cons d rest =>
    simp only [unquote, unquoteF, if_neg hc, List.length_cons]

lemma unquote_percent (a b : Char) (l : List Char)
    (hh1 : isHexDigit a = true) (hh2 : isHexDigit b = true) :
    unquote ('%' :: a :: b :: l)
      = Char.ofNat (16 * hexVal a + hexVal b) :: unquote l := by
  show unquoteF (l.length + 3) ('%' :: a :: b :: l) = _
  simp only [unquoteF, if_true, hh1, hh2, Bool.and_self, reduceIte]
  rw [unquoteF_len _ _ (by omega)]

lemma unquote_quote (s : List Char) (hs : ∀ c ∈ s, c.toNat < 128) :
    unquote (quote s) = s := by
  induction s with
  | nil => simp [quote, unquote, unquoteF_nil]
  | cons c cs ih =>
    have hc : c.toNat < 128 := hs c (by simp)
    have ihh := ih fun d hd => hs d (by simp [hd])
    show unquote (quoteChar c ++ quote cs) = c :: cs
    by_cases hsafe : isQuoteSafe c = true
    · have : quoteChar c = [c] := by simp [quoteChar, hsafe]
      rw [this, List.singleton_append,
        unquote_cons_of_ne c _ (quoteSafe_ne c hsafe).2.2.2, ihh]
    · have hdiv : c.toNat / 16 < 16 := by omega
      have hmod : c.toNat % 16 < 16 := by omega
      have : quoteChar c
          = ['%', hexDigitChar (c.toNat / 16), hexDigitChar (c.toNat % 16)] := by
        simp [quoteChar, hsafe]
      rw [this]
      show unquote ('%' :: hexDigitChar (c.toNat / 16)
        :: hexDigitChar (c.toNat % 16) :: quote cs) = c :: cs
      rw [unquote_percent _ _ _ (hexDigit_facts _ hdiv).2.2.2.1
        (hexDigit_facts _ hmod).2.2.2.1]
      rw [(hexDigit_facts _ hdiv).2.2.2.2, (hexDigit_facts _ hmod).2.2.2.2]
      rw [Nat.div_add_mod, char_ofNat_toNat c hc, ihh]

lemma splitOnAmp_no_amp (a : List Char) (h : '&' ∉ a) : splitOnAmp a = [a] := by
  induction a with
  | nil => rfl
  | cons c cs ih =>
    have hc : c ≠ '&' := fun e => h (by simp [e])
    have ih2 := ih fun m => h (List.mem_cons_of_mem _ m)
    simp [splitOnAmp, hc, ih2]

lemma splitOnAmp_append (a r : List Char) (h : '&' ∉ a) :
    splitOnAmp (a ++ '&' :: r) = a :: splitOnAmp r := by
  induction a with
  | nil => simp [splitOnAmp]
  | cons c cs ih =>
    have hc : c ≠ '&' := fun e => h (by simp [e])
    have ih2 : splitOnAmp (cs.append ('&' :: r)) = cs :: splitOnAmp r :=
      ih fun m => h (List.mem_cons_of_mem _ m)
    simp only [List.cons_append, splitOnAmp, if_neg hc, ih2]

lemma splitKV_append (k v : List Char) (h : '=' ∉ k) :
    splitKV (k ++ '=' :: v) = some (k, v) := by
  induction k with
  | nil => simp [splitKV]
  | cons c cs ih =>
    have hc : c ≠ '=' := fun e => h (by simp [e])
    have ih2 : splitKV (cs.append ('=' :: v)) = some (cs, v) :=
      ih fun m => h (List.mem_cons_of_mem _ m)
    simp only [List.cons_append, splitKV, if_neg hc, ih2]

lemma pyStrip_all_space (s : List Char) (h : ∀ c ∈ s, isPySpace c = true) :
    pyStrip s = [] := by
  unfold pyStrip
  rw [List.dropWhile_eq_nil_iff.mpr h]
  rfl

lemma unquote_ne_nil (l : List Char) (h : l ≠ []) : unquote l ≠ [] := by
  cases l with
  | nil => exact absurd rfl h
  | cons c rest =>
    show unquoteF (rest.length + 1) (c :: rest) ≠ []
    by_cases hc : c = '%'
    · subst hc
      cases rest with
      | nil => simp [unquoteF]
      | cons d r2 =>
        cases r2 with
        | nil => simp [unquoteF]
        | cons e r3 =>
          simp only [unquoteF, if_true]
          split <;> simp
    · simp [unquoteF, hc]

lemma unquotePlus_ne_nil (v : List Char) (h : v ≠ []) : unquotePlus v ≠ [] := by
  unfold unquotePlus
  apply unquote_ne_nil
  simpa using h

lemma parse_qsl_values_ne_nil (q : List Char) : ∀ p ∈ parse_qsl q, p.2 ≠ [] := by
  intro p hp
  unfold parse_qsl at hp
  rcases List.mem_filterMap.mp hp with ⟨seg, _, hsome⟩
  by_cases h0 : seg = []
  · simp [h0] at hsome
  · rw [if_neg h0] at hsome
    cases hkv : splitKV seg with
    | none => simp [hkv] at hsome
    | some kv =>
      obtain ⟨n, v⟩ := kv
      simp only [hkv] at hsome
      by_cases hv : v = []
      · simp [hv] at hsome
      · simp only [if_neg hv, Option.some.injEq] at hsome
        rw [← hsome]
        exact unquotePlus_ne_nil v hv

lemma qsHasKey_values (q k : List Char) (h : qsHasKey q k = true) :
    qsValues q k ≠ [] := by
  unfold qsHasKey at h
  exact of_decide_eq_true h

lemma qsFirst_ne_nil (q k : List Char) (h : qsHasKey q k = true) :
    qsFirst q k ≠ [] := by
  have hne := qsHasKey_values q k h
  unfold qsFirst
  cases hv : qsValues q k with
  | nil => exact absurd hv hne
  | cons v vs =>
    simp only [List.headD_cons]
    have hvmem : v ∈ qsValues q k := by rw [hv]; exact List.mem_cons_self v vs
    unfold qsValues at hvmem
    rcases List.mem_map.mp hvmem with ⟨p, hpmem, hpv⟩
    rw [← hpv]
    exact parse_qsl_values_ne_nil q p (List.mem_of_mem_filter hpmem)

lemma do_GET_code (st : HState) (path : List Char)
    (h : qsHasKey (urlQuery path) "code".toList = true) :
    do_GET st path
      = (⟨some (qsFirst (urlQuery path) "code".toList), true⟩, 200, successPage) := by
  simp only [do_GET]
  rw [if_pos h]

lemma do_GET_not_code (st : HState) (path : List Char)
    (h : qsHasKey (urlQuery path) "code".toList = false) :
    (do_GET st path).1 = st := by
  have h2 : ¬ qsHasKey (urlQuery path) "code".toList = true := by
    intro hh
    rw [hh] at h
    exact absurd h (by decide)
  simp only [do_GET]
  rw [if_neg h2]
  split <;> rfl

lemma serverLoop_stopped (rs : List (List Char)) (st : HState)
    (h : st.code_received = true) : serverLoop st rs = (st, []) := by
  cases rs <;> simp [serverLoop, h]

lemma serverLoop_state_not_code (rs : List (List Char)) (st : HState)
    (h : ∀ r ∈ rs, isCodeReq r = false) : (serverLoop st rs).1 = st := by
  induction rs generalizing st with
  | nil => rfl
  | cons r rs ih =>
    by_cases hst : st.code_received = true
    · rw [serverLoop_stopped _ _ hst]
    · simp only [serverLoop, hst, if_false, Bool.false_eq_true]
      have h1 : (do_GET st r).1 = st :=
        do_GET_not_code st r (h r (List.mem_cons_self r rs))
      have h2 := ih (do_GET st r).1 fun x hx => h x (List.mem_cons_of_mem r hx)
      rw [h2, h1]

lemma serverLoop_captures (rs : List (List Char)) (st : HState)
    (hst : st.code_received = false) (h : ∃ r ∈ rs, isCodeReq r = true) :
    ∃ v, (serverLoop st rs).1.auth_code = some v ∧ v ≠ [] := by
  induction rs generalizing st with
  | nil => simp at h
  | cons r rs ih =>
    simp only [serverLoop, hst, if_false, Bool.false_eq_true]
    by_cases hr : isCodeReq r = true
    · rw [show do_GET st r
          = (⟨some (qsFirst (urlQuery r) "code".toList), true⟩, 200, successPage)
          from do_GET_code st r hr]
      rw [serverLoop_stopped rs _ rfl]
      exact ⟨qsFirst (urlQuery r) "code".toList, rfl, qsFirst_ne_nil _ _ hr⟩
    · have hnc : qsHasKey (urlQuery r) "code".toList = false := by
        unfold isCodeReq at hr
        exact Bool.not_eq_true _ ▸ (Bool.eq_false_iff.mpr hr)
      have h1 : (do_GET st r).1 = st := do_GET_not_code st r hnc
      rw [h1]
      apply ih st hst
      rcases h with ⟨x, hxmem, hxcode⟩
      rcases List.mem_cons.mp hxmem with rfl | hxs
      · exact absurd hxcode hr
      · exact ⟨x, hxs, hxcode⟩

lemma scope_string_ascii (scopes : List (List Char))
    (h : ∀ s ∈ scopes, ∀ c ∈ s, c.toNat < 128) :
    ∀ c ∈ scope_string scopes, c.toNat < 128 := by
  intro c hc
  cases scopes with
  | nil => simp [scope_string] at hc
  | cons s rest =>
    unfold scope_string at hc
    rcases List.mem_append.mp hc with hm | hm
    · exact h s (List.mem_cons_self s rest) c hm
    · rcases List.mem_flatMap.mp hm with ⟨t, ht, hct⟩
      rcases List.mem_cons.mp hct with rfl | hct2
      · decide
      · exact h t (List.mem_cons_of_mem s ht) c hct2

lemma authQuery_parse (cid r s : List Char)
    (hcid : ∀ c ∈ cid, isQuoteSafe c = true)
    (hr : ∀ c ∈ r, c.toNat < 128)
    (hs : ∀ c ∈ s, c.toNat < 128) :
    parseQuery (authQuery cid r s)
      = [("client_id".toList, cid),
         ("redirect_uri".toList, quote r),
         ("response_type".toList, "code".toList),
         ("scope".toList, quote s),
         ("access_type".toList, "offline".toList),
         ("prompt".toList, "consent".toList)] := by
  have hqr := amp_not_mem_quote r hr
  have hqs := amp_not_mem_quote s hs
  have A1 : '&' ∉ ("client_id=".toList ++ cid) := by
    intro hm
    rcases List.mem_append.mp hm with hm | hm
    · exact absurd hm (by decide)
    · exact absurd (hcid '&' hm) (by decide)
  have A2 : '&' ∉ ("redirect_uri=".toList ++ quote r) := by
    intro hm
    rcases List.mem_append.mp hm with hm | hm
    · exact absurd hm (by decide)
    · exact hqr hm
  have A4 : '&' ∉ ("scope=".toList ++ quote s) := by
    intro hm
    rcases List.mem_append.mp hm with hm | hm
    · exact absurd hm (by decide)
    · exact hqs hm
  unfold parseQuery authQuery
  rw [splitOnAmp_append _ _ A1, splitOnAmp_append _ _ A2,
    splitOnAmp_append _ _ (by decide), splitOnAmp_append _ _ A4,
    splitOnAmp_append _ _ (by decide), splitOnAmp_no_amp _ (by decide)]
  simp only [List.map_cons, List.map_nil]
  rw [show ("client_id=".toList ++ cid : List Char)
      = "client_id".toList ++ '=' :: cid from rfl,
    splitKV_append _ _ (by decide)]
  rw [show ("redirect_uri=".toList ++ quote r : List Char)
      = "redirect_uri".toList ++ '=' :: quote r from rfl,
    splitKV_append _ _ (by decide)]
  rw [show ("scope=".toList ++ quote s : List Char)
      = "scope".toList ++ '=' :: quote s from rfl,
    splitKV_append _ _ (by decide)]
  rfl

lemma authQuery_chars (cid r s : List Char)
    (hcid : ∀ c ∈ cid, isQuoteSafe c = true)
    (hr : ∀ c ∈ r, c.toNat < 128)
    (hs : ∀ c ∈ s, c.toNat < 128) :
    ∀ c ∈ authQuery cid r s, isUrlChar c = true := by
  unfold authQuery
  refine List.forall_mem_append.mpr ⟨List.forall_mem_append.mpr
    ⟨by decide, fun c hc => by simp [isUrlChar, hcid c hc]⟩, ?_⟩
  refine List.forall_mem_cons.mpr ⟨by decide, ?_⟩
  refine List.forall_mem_append.mpr ⟨List.forall_mem_append.mpr
    ⟨by decide, fun c hc => (quote_chars r hr c hc).1⟩, ?_⟩
  refine List.forall_mem_cons.mpr ⟨by decide, ?_⟩
  refine List.forall_mem_append.mpr ⟨by decide, ?_⟩
  refine List.forall_mem_cons.mpr ⟨by decide, ?_⟩
  refine List.forall_mem_append.mpr ⟨List.forall_mem_append.mpr
    ⟨by decide, fun c hc => (quote_chars s hs c hc).1⟩, ?_⟩
  refine List.forall_mem_cons.mpr ⟨by decide, ?_⟩
  refine List.forall_mem_append.mpr ⟨by decide, ?_⟩
  exact List.forall_mem_cons.mpr ⟨by decide, by decide⟩

lemma authQuery_matches_template :
    authQuery "CID".toList "urn:x".toList "S1 S2".toList
      = ("client_id=CID&redirect_uri=urn%3Ax&response_type=code"
          ++ "&scope=S1%20S2&access_type=offline&prompt=consent").toList := by
  decide

lemma finishExchange_failed (res : ExchangeResult) (h : failedExchange res = true) :
    (finishExchange res).2.2 = 0 ∧ (finishExchange res).2.1 = none
      ∧ reportsExchangeFailure (finishExchange res).1 = true := by
  cases res with
  | ok t => exact absurd h (by simp [failedExchange])
  | httpError s b =>
    refine ⟨rfl, rfl, ?_⟩
    show reportsExchangeFailure (httpErrorEvents s b) = true
    simp only [reportsExchangeFailure, List.any_eq_true]
    refine ⟨OutEvent.exchangeFailed s b, ?_, rfl⟩
    unfold httpErrorEvents
    cases jsonLoadsFlat b with
    | none => simp
    | some j =>
      split <;> try simp
      split <;> simp
  | exception m => simp [finishExchange, reportsExchangeFailure]

end Lemmas

/-- Claim C4: on each inbound request to the local callback handler, a
query with a `code` parameter makes the handler capture its value,
respond 200 with the success page and set the completion signal; a
query with an `error` parameter (and no code) gets a 400 response with
the error and description rendered into the page and leaves the shared
state, including the completion signal, untouched; any other request
gets the generic waiting page and changes neither the captured code nor
the signal. -/
theorem do_GET_request_cases (st : HState) (path : List Char) :
    (qsHasKey (urlQuery path) "code".toList = true →
      do_GET st path
        = (⟨some (qsFirst (urlQuery path) "code".toList), true⟩, 200, successPage))
  ∧ (qsHasKey (urlQuery path) "code".toList = false →
      qsHasKey (urlQuery path) "error".toList = true →
      do_GET st path
        = (st, 400, failurePage (qsFirst (urlQuery path) "error".toList)
            (qsFirstD (urlQuery path) "error_description".toList [])))
  ∧ (qsHasKey (urlQuery path) "code".toList = false →
      qsHasKey (urlQuery path) "error".toList = false →
      do_GET st path = (st, 200, waitingPage)) := by
  refine ⟨fun hc => do_GET_code st path hc, fun hc he => ?_, fun hc he => ?_⟩
  · have hc2 : ¬ qsHasKey (urlQuery path) "code".toList = true := by
      intro hh; rw [hh] at hc; exact absurd hc (by decide)
    simp only [do_GET]
    rw [if_neg hc2, if_pos he]
  · have hc2 : ¬ qsHasKey (urlQuery path) "code".toList = true := by
      intro hh; rw [hh] at hc; exact absurd hc (by decide)
    have he2 : ¬ qsHasKey (urlQuery path) "error".toList = true := by
      intro hh; rw [hh] at he; exact absurd he (by decide)
    simp only [do_GET]
    rw [if_neg hc2, if_neg he2]

/-- Concrete instantiations of the three cases of C4: a code callback,
an error callback, and a favicon probe. -/
theorem do_GET_request_cases_witness :
    (qsHasKey (urlQuery "/?code=abc".toList) "code".toList = true
      ∧ do_GET initState "/?code=abc".toList
          = (⟨some "abc".toList, true⟩, 200, successPage))
  ∧ (qsHasKey (urlQuery "/?error=access_denied&error_description=Bad+code".toList)
        "code".toList = false
      ∧ qsHasKey (urlQuery "/?error=access_denied&error_description=Bad+code".toList)
          "error".toList = true
      ∧ do_GET initState "/?error=access_denied&error_description=Bad+code".toList
          = (initState, 400, failurePage "access_denied".toList "Bad code".toList))
  ∧ (qsHasKey (urlQuery "/favicon.ico".toList) "code".toList = false
      ∧ qsHasKey (urlQuery "/favicon.ico".toList) "error".toList = false
      ∧ do_GET initState "/favicon.ico".toList = (initState, 200, waitingPage)) := by
  refine ⟨⟨by decide, ?_⟩, ⟨by decide, by decide, ?_⟩, ⟨by decide, by decide, ?_⟩⟩
  · exact (do_GET_request_cases initState ("/?code=abc".toList)).1 (by decide)
  · exact (do_GET_request_cases initState
      ("/?error=access_denied&error_description=Bad+code".toList)).2.1
      (by decide) (by decide)
  · exact (do_GET_request_cases initState ("/favicon.ico".toList)).2.2
      (by decide) (by decide)

/-- Claim C10: when a request carries both a `code` and an `error`
parameter, the `if`/`elif` order in `do_GET` makes the code branch win:
the first code value is captured, the response is the 200 success page,
and completion is signaled; the error branch is not taken. -/
theorem code_takes_precedence_over_error (st : HState) (path : List Char)
    (hc : qsHasKey (urlQuery path) "code".toList = true)
    (_he : qsHasKey (urlQuery path) "error".toList = true) :
    do_GET st path
      = (⟨some (qsFirst (urlQuery path) "code".toList), true⟩, 200, successPage) :=
  do_GET_code st path hc

/-- C10 at the concrete request `/?code=abc&error=access_denied`. -/
theorem code_takes_precedence_over_error_witness :
    qsHasKey (urlQuery "/?code=abc&error=access_denied".toList) "code".toList = true
  ∧ qsHasKey (urlQuery "/?code=abc&error=access_denied".toList) "error".toList = true
  ∧ do_GET initState "/?code=abc&error=access_denied".toList
      = (⟨some "abc".toList, true⟩, 200, successPage) :=
  ⟨by decide, by decide,
    code_takes_precedence_over_error initState ("/?code=abc&error=access_denied".toList)
      (by decide) (by decide)⟩

/-- Claim C8: the manual flow on empty operator input prints the abort
message and exits 1 without ever building or sending the token POST. -/
theorem manual_empty_input_aborts (cid secret redirect : List Char)
    (endpoint : TokenRequest → ExchangeResult) :
    manualFlow [] cid secret redirect endpoint
      = ⟨1, none, [.abortNoCode], none⟩ := by
  simp [manualFlow, pyStrip]

/-- Claim C9: the manual flow strips the raw operator input before the
emptiness check, so whitespace-only input aborts exactly like empty
input (exit 1, no POST), and any input with surviving content is
exchanged with surrounding whitespace removed. -/
theorem manual_input_stripped (raw cid secret redirect : List Char)
    (endpoint : TokenRequest → ExchangeResult) :
    ((∀ c ∈ raw, isPySpace c = true) →
      manualFlow raw cid secret redirect endpoint = ⟨1, none, [.abortNoCode], none⟩)
  ∧ (pyStrip raw ≠ [] →
      (manualFlow raw cid secret redirect endpoint).posted
        = some (mkTokenRequest (pyStrip raw) cid secret redirect)) := by
  constructor
  · intro h
    simp [manualFlow, pyStrip_all_space raw h]
  · intro h
    simp only [manualFlow]
    rw [if_neg h]

/-- C9 on the concrete inputs: whitespace-only input aborts; the input
with surrounding whitespace is exchanged with it stripped. -/
theorem manual_input_stripped_witness :
    ((∀ c ∈ "  \t ".toList, isPySpace c = true)
      ∧ manualFlow "  \t ".toList "c".toList "s".toList "r".toList
          (fun _ => .exception []) = ⟨1, none, [.abortNoCode], none⟩)
  ∧ (pyStrip " abc ".toList ≠ []
      ∧ (manualFlow " abc ".toList "c".toList "s".toList "r".toList
          (fun _ => .exception [])).posted
        = some (mkTokenRequest "abc".toList "c".toList "s".toList "r".toList)) := by
  refine ⟨⟨by decide, ?_⟩, ⟨by decide, ?_⟩⟩
  · exact (manual_input_stripped ("  \t ".toList) ("c".toList) ("s".toList)
      ("r".toList) (fun _ => .exception [])).1 (by decide)
  · exact (manual_input_stripped (" abc ".toList) ("c".toList) ("s".toList)
      ("r".toList) (fun _ => .exception [])).2 (by decide)

/-- Claim C6: whenever the parsed token response contains
`refresh_token` with value R, the flow prints R, and writes the file
`refresh_token.txt` in mode `w` with contents exactly R (no trailing
newline added), so the resulting file contents equal R whatever the
file held before (overwrite without confirmation). -/
theorem refresh_token_printed_and_saved (tokens : List (List Char × List Char))
    (r : List Char) (prev : Option (List Char))
    (h : pyDictGet tokens "refresh_token".toList = some r) :
    (finishExchange (.ok tokens)).1 = [.tokenValue r]
  ∧ (finishExchange (.ok tokens)).2.1
      = some ⟨"refresh_token.txt".toList, "w".toList, r⟩
  ∧ applyWrite ⟨"refresh_token.txt".toList, "w".toList, r⟩ prev = r := by
  refine ⟨?_, ?_, ?_⟩
  · simp only [finishExchange, h]
  · simp only [finishExchange, h]
  · simp [applyWrite]

/-- C6 at the response of the specification example, over a
pre-existing file with different contents. -/
theorem refresh_token_printed_and_saved_witness :
    pyDictGet [("refresh_token".toList, "R1".toList),
        ("access_token".toList, "A1".toList)] "refresh_token".toList
      = some "R1".toList
  ∧ ((finishExchange (.ok [("refresh_token".toList, "R1".toList),
        ("access_token".toList, "A1".toList)])).1 = [.tokenValue "R1".toList]
    ∧ (finishExchange (.ok [("refresh_token".toList, "R1".toList),
        ("access_token".toList, "A1".toList)])).2.1
        = some ⟨"refresh_token.txt".toList, "w".toList, "R1".toList⟩
    ∧ applyWrite ⟨"refresh_token.txt".toList, "w".toList, "R1".toList⟩
        (some "OLD".toList) = "R1".toList) :=
  ⟨by decide,
    refresh_token_printed_and_saved
      [("refresh_token".toList, "R1".toList), ("access_token".toList, "A1".toList)]
      ("R1".toList) (some "OLD".toList) (by decide)⟩

/-- Claim C7: a 2xx token response without `refresh_token` makes the
flow print the warning and dump the parsed response, write no file, and
finish with exit status 0. -/
theorem missing_refresh_token_nonfatal (tokens : List (List Char × List Char))
    (h : pyDictGet tokens "refresh_token".toList = none) :
    finishExchange (.ok tokens)
      = ([.warnNoRefreshToken, .responseDump tokens], none, 0) := by
  simp only [finishExchange, h]

/-- C7 at the response of the specification example. -/
theorem missing_refresh_token_nonfatal_witness :
    pyDictGet [("access_token".toList, "A1".toList)] "refresh_token".toList = none
  ∧ finishExchange (.ok [("access_token".toList, "A1".toList)])
      = ([.warnNoRefreshToken,
          .responseDump [("access_token".toList, "A1".toList)]], none, 0) :=
  ⟨by decide,
    missing_refresh_token_nonfatal [("access_token".toList, "A1".toList)] (by decide)⟩

/-- Claim C5: when no request carrying a `code` parameter reaches the
listener within the timeout window, the local-redirect flow reports the
timeout, exits 1, and never POSTs to the token endpoint. -/
theorem local_timeout_no_exchange (reqs : List (List Char)) (cid secret : List Char)
    (endpoint : TokenRequest → ExchangeResult)
    (h : ∀ r ∈ reqs, isCodeReq r = false) :
    localFlow reqs cid secret endpoint = ⟨1, none, [.timeoutMsg], none⟩ := by
  unfold localFlow
  rw [serverLoop_state_not_code reqs initState h]
  rfl

/-- C5 with a window containing only an error callback and a probe. -/
theorem local_timeout_no_exchange_witness :
    (∀ r ∈ ["/?error=access_denied".toList, "/favicon.ico".toList],
      isCodeReq r = false)
  ∧ localFlow ["/?error=access_denied".toList, "/favicon.ico".toList]
      "c".toList "s".toList (fun _ => .exception [])
      = ⟨1, none, [.timeoutMsg], none⟩ :=
  ⟨by decide,
    local_timeout_no_exchange ["/?error=access_denied".toList, "/favicon.ico".toList]
      ("c".toList) ("s".toList) (fun _ => .exception []) (by decide)⟩

/-- Claim C1 counterexample: after a terminal error callback
(`/?error=access_denied`, answered 400) the listener dispatches the
next request too — the loop condition only checks the code event, which
the error branch never sets, so the run dispatches both requests,
refuting the claim that no request is dispatched after either kind of
terminal callback. -/
theorem listener_error_continues_cex :
    (serverLoop initState
        ["/?error=access_denied".toList, "/favicon.ico".toList]).2.length = 2
  ∧ ((serverLoop initState
        ["/?error=access_denied".toList, "/favicon.ico".toList]).2.map
      fun p => p.2.1) = [400, 200] := by
  decide

/-- Claim C1 (amended): at most one authorization code is captured per
run, and the listener stops dispatching immediately after the first
callback carrying a valid code (every dispatched request except
possibly the last carries no code); an error callback, by contrast,
does not stop the listener, which keeps dispatching until a code
arrives or the timeout fires. -/
theorem listener_single_code (st : HState) (rs : List (List Char))
    (h : st.code_received = false) :
    (((serverLoop st rs).2.map fun p => p.1).countP fun r => isCodeReq r) ≤ 1
  ∧ ∀ r ∈ ((serverLoop st rs).2.map fun p => p.1).dropLast,
      isCodeReq r = false := by
  induction rs generalizing st with
  | nil =>
    refine ⟨by simp [serverLoop], fun r hr => ?_⟩
    simp [serverLoop] at hr
  | cons r rs ih =>
    simp only [serverLoop, h, Bool.false_eq_true, if_false]
    by_cases hr : isCodeReq r = true
    · rw [show do_GET st r
          = (⟨some (qsFirst (urlQuery r) "code".toList), true⟩, 200, successPage)
          from do_GET_code st r hr]
      rw [serverLoop_stopped rs _ rfl]
      refine ⟨?_, fun x hx => ?_⟩
      · simp [List.countP_cons, hr]
      · simp at hx
    · have hrf : isCodeReq r = false := by simpa using hr
      have h1 : (do_GET st r).1 = st := do_GET_not_code st r hrf
      rw [h1]
      obtain ⟨ih1, ih2⟩ := ih st h
      refine ⟨?_, fun x hx => ?_⟩
      · simp only [List.map_cons, List.countP_cons, hrf]
        simpa using ih1
      · simp only [List.map_cons] at hx
        cases hd : (serverLoop st rs).2.map (fun p => p.1) with
        | nil =>
          rw [hd] at hx
          simp at hx
        | cons y ys =>
          rw [hd] at hx
          rw [List.dropLast_cons₂] at hx
          rcases List.mem_cons.mp hx with rfl | hx2
          · exact hrf
          · rw [hd] at ih2
            exact ih2 x hx2

/-- C1 (amended) on a run seeing an error callback, then a code
callback, then a further probe. -/
theorem listener_single_code_witness :
    initState.code_received = false
  ∧ ((((serverLoop initState ["/?error=x".toList, "/?code=abc".toList,
          "/favicon.ico".toList]).2.map fun p => p.1).countP
        fun r => isCodeReq r) ≤ 1
    ∧ ∀ r ∈ ((serverLoop initState ["/?error=x".toList, "/?code=abc".toList,
          "/favicon.ico".toList]).2.map fun p => p.1).dropLast,
        isCodeReq r = false) :=
  ⟨rfl, listener_single_code initState
    ["/?error=x".toList, "/?code=abc".toList, "/favicon.ico".toList] rfl⟩

/-- Claim C2 counterexample: with code `abc` entered (manual flow) or
captured (local flow) and the token endpoint answering HTTP 400, both
flows perform the exchange yet the process finishes with exit status 0:
the except handlers print the failure but never call `exit`, and the
script falls off the end of the module. -/
theorem exchange_failure_exit_zero_cex :
    (manualFlow "abc".toList "cid".toList "secret".toList
        "urn:ietf:wg:oauth:2.0:oob".toList
        (fun _ : TokenRequest => ExchangeResult.httpError 400 "invalid_grant".toList)).posted
      = some (mkTokenRequest "abc".toList "cid".toList "secret".toList
          "urn:ietf:wg:oauth:2.0:oob".toList)
  ∧ (manualFlow "abc".toList "cid".toList "secret".toList
        "urn:ietf:wg:oauth:2.0:oob".toList
        (fun _ : TokenRequest => ExchangeResult.httpError 400 "invalid_grant".toList)).exitCode = 0
  ∧ (localFlow ["/?code=abc".toList] "cid".toList "secret".toList
        (fun _ : TokenRequest => ExchangeResult.httpError 400 "invalid_grant".toList)).posted
      = some (mkTokenRequest "abc".toList "cid".toList "secret".toList
          "http://localhost:8080".toList)
  ∧ (localFlow ["/?code=abc".toList] "cid".toList "secret".toList
        (fun _ : TokenRequest => ExchangeResult.httpError 400 "invalid_grant".toList)).exitCode = 0 := by
  decide

/-- Claim C2 (amended): for every failing token-exchange attempt
(non-2xx HTTP status or transport exception), each flow prints the
failure report and writes no token file, but the process exits with
status 0 — neither script's except handlers set a non-zero exit
status. -/
theorem exchange_failure_reports_exit_zero (raw cid secret redirect : List Char)
    (reqs : List (List Char)) (endpoint : TokenRequest → ExchangeResult)
    (hfail : ∀ req, failedExchange (endpoint req) = true)
    (hm : pyStrip raw ≠ [])
    (hl : ∃ r ∈ reqs, isCodeReq r = true) :
    ((manualFlow raw cid secret redirect endpoint).posted ≠ none
      ∧ (manualFlow raw cid secret redirect endpoint).exitCode = 0
      ∧ (manualFlow raw cid secret redirect endpoint).fileWrite = none
      ∧ reportsExchangeFailure
          (manualFlow raw cid secret redirect endpoint).events = true)
  ∧ ((localFlow reqs cid secret endpoint).posted ≠ none
      ∧ (localFlow reqs cid secret endpoint).exitCode = 0
      ∧ (localFlow reqs cid secret endpoint).fileWrite = none
      ∧ reportsExchangeFailure (localFlow reqs cid secret endpoint).events = true) := by
  constructor
  · simp only [manualFlow]
    rw [if_neg hm]
    have hf := finishExchange_failed _
      (hfail (mkTokenRequest (pyStrip raw) cid secret redirect))
    exact ⟨by simp, hf.1, hf.2.1, hf.2.2⟩
  · obtain ⟨v, hv, hvne⟩ := serverLoop_captures reqs initState rfl hl
    simp only [localFlow]
    rw [hv]
    have hcond : ¬ pyFalsyCode (some v) = true := by
      simp [pyFalsyCode, hvne]
    rw [if_neg hcond]
    simp only [Option.getD_some]
    have hf := finishExchange_failed _
      (hfail (mkTokenRequest v cid secret ("http://localhost:8080".toList)))
    exact ⟨by simp, hf.1, hf.2.1, hf.2.2⟩

/-- C2 (amended) on concrete runs: input with surrounding whitespace,
one code callback, endpoint always failing with HTTP 400. -/
theorem exchange_failure_reports_exit_zero_witness :
    (∀ req, failedExchange
        ((fun _ : TokenRequest => ExchangeResult.httpError 400 "oops".toList) req) = true)
  ∧ pyStrip " abc ".toList ≠ []
  ∧ (∃ r ∈ ["/?code=abc".toList], isCodeReq r = true)
  ∧ (((manualFlow " abc ".toList "cid".toList "secret".toList "r".toList
        (fun _ : TokenRequest => ExchangeResult.httpError 400 "oops".toList)).posted ≠ none
      ∧ (manualFlow " abc ".toList "cid".toList "secret".toList "r".toList
          (fun _ : TokenRequest => ExchangeResult.httpError 400 "oops".toList)).exitCode = 0
      ∧ (manualFlow " abc ".toList "cid".toList "secret".toList "r".toList
          (fun _ : TokenRequest => ExchangeResult.httpError 400 "oops".toList)).fileWrite = none
      ∧ reportsExchangeFailure (manualFlow " abc ".toList "cid".toList
          "secret".toList "r".toList
          (fun _ : TokenRequest => ExchangeResult.httpError 400 "oops".toList)).events = true)
    ∧ ((localFlow ["/?code=abc".toList] "cid".toList "secret".toList
          (fun _ : TokenRequest => ExchangeResult.httpError 400 "oops".toList)).posted ≠ none
      ∧ (localFlow ["/?code=abc".toList] "cid".toList "secret".toList
          (fun _ : TokenRequest => ExchangeResult.httpError 400 "oops".toList)).exitCode = 0
      ∧ (localFlow ["/?code=abc".toList] "cid".toList "secret".toList
          (fun _ : TokenRequest => ExchangeResult.httpError 400 "oops".toList)).fileWrite = none
      ∧ reportsExchangeFailure (localFlow ["/?code=abc".toList] "cid".toList
          "secret".toList
          (fun _ : TokenRequest => ExchangeResult.httpError 400 "oops".toList)).events = true)) :=
  ⟨fun _ => rfl, by decide, by decide,
    exchange_failure_reports_exit_zero (" abc ".toList) ("cid".toList)
      ("secret".toList) ("r".toList) (["/?code=abc".toList])
      (fun _ : TokenRequest => ExchangeResult.httpError 400 "oops".toList)
      (fun _ => rfl) (by decide) (by decide)⟩

/-- Claim C3: for any ordered scope list (and a client id made of
URL-safe characters, as Google client ids are, and an ASCII redirect
URI), the built authorization query parses into exactly the six
parameters of the template — the raw client id, the percent-encoded
redirect URI, `response_type=code`, the percent-encoded space-joined
scope string, `access_type=offline` and `prompt=consent` — so it
contains exactly one `scope` parameter, that parameter percent-decodes
back to the space-joined scope list in original order, and every
character of the full URL is legal in a percent-encoded URL. -/
theorem auth_url_single_scope (cid redirect : List Char) (scopes : List (List Char))
    (hcid : ∀ c ∈ cid, isQuoteSafe c = true)
    (hred : ∀ c ∈ redirect, c.toNat < 128)
    (hsc : ∀ s ∈ scopes, ∀ c ∈ s, c.toNat < 128) :
    parseQuery (authQuery cid redirect (scope_string scopes))
      = [("client_id".toList, cid),
         ("redirect_uri".toList, quote redirect),
         ("response_type".toList, "code".toList),
         ("scope".toList, quote (scope_string scopes)),
         ("access_type".toList, "offline".toList),
         ("prompt".toList, "consent".toList)]
  ∧ ((parseQuery (authQuery cid redirect (scope_string scopes))).countP
      fun p => p.1 = "scope".toList) = 1
  ∧ unquote (quote (scope_string scopes)) = scope_string scopes
  ∧ ∀ c ∈ auth_url cid redirect (scope_string scopes), isUrlChar c = true := by
  have hsstr := scope_string_ascii scopes hsc
  have hparse := authQuery_parse cid redirect (scope_string scopes) hcid hred hsstr
  refine ⟨hparse, ?_, unquote_quote _ hsstr, ?_⟩
  · rw [hparse]
    simp [List.countP_cons, List.countP_nil]
  · intro c hc
    unfold auth_url at hc
    rcases List.mem_append.mp hc with hm | hm
    · exact (by decide :
        ∀ x ∈ "https://accounts.google.com/o/oauth2/v2/auth?".toList,
          isUrlChar x = true) c hm
    · exact authQuery_chars cid redirect (scope_string scopes) hcid hred hsstr c hm

/-- C3 at the configuration of the local-redirect script: a typical
Google client id, the localhost redirect URI, and its three scopes. -/
theorem auth_url_single_scope_witness :
    (∀ c ∈ "myclient.apps.googleusercontent.com".toList, isQuoteSafe c = true)
  ∧ (∀ c ∈ "http://localhost:8080".toList, c.toNat < 128)
  ∧ (∀ s ∈ scopesLocalhost, ∀ c ∈ s, c.toNat < 128)
  ∧ (parseQuery (authQuery "myclient.apps.googleusercontent.com".toList
        "http://localhost:8080".toList (scope_string scopesLocalhost))
      = [("client_id".toList, "myclient.apps.googleusercontent.com".toList),
         ("redirect_uri".toList, quote "http://localhost:8080".toList),
         ("response_type".toList, "code".toList),
         ("scope".toList, quote (scope_string scopesLocalhost)),
         ("access_type".toList, "offline".toList),
         ("prompt".toList, "consent".toList)]
    ∧ ((parseQuery (authQuery "myclient.apps.googleusercontent.com".toList
          "http://localhost:8080".toList (scope_string scopesLocalhost))).countP
        fun p => p.1 = "scope".toList) = 1
    ∧ unquote (quote (scope_string scopesLocalhost)) = scope_string scopesLocalhost
    ∧ ∀ c ∈ auth_url "myclient.apps.googleusercontent.com".toList
        "http://localhost:8080".toList (scope_string scopesLocalhost),
        isUrlChar c = true) :=
  ⟨by decide, by decide, by decide,
    auth_url_single_scope ("myclient.apps.googleusercontent.com".toList)
      ("http://localhost:8080".toList) scopesLocalhost
      (by decide) (by decide) (by decide)⟩

end PhotoSync
